import Mathlib

/-!
Verification development for the karaoke queue application.

The definitions below are shallow embeddings of:
  - the song lifecycle machine (`src/machines/song-machine.js`),
  - the session lifecycle machine (`src/machines/session-machine.js`),
  - the queue position model (`getNextPlayableSong` in `public/dj/app.js`),
  - the persistence layer (`database-sqlite.js`).

JavaScript `null`/`undefined` is modelled as `Option.none`; timestamps are
integers (milliseconds since the epoch, as produced by `Date.getTime()`).
-/

namespace Karaoke

/-- Song machine states, from the `states:` block of `songMachine` in
`src/machines/song-machine.js`. -/
inductive SongState
  | waiting
  | delayed
  | playing
  | done
  | skipped
deriving DecidableEq, Repr

/-- Song machine context, from the `context:` block of `songMachine`. -/
structure SongContext where
  songId : Option Int := none
  sessionId : Option String := none
  position : Int := 0
  delayedUntil : Option Int := none
  delayMinutes : Option Int := none
  isNextInQueue : Bool := false
deriving DecidableEq, Repr

/-- Events accepted by `songMachine`. The `DELAY` event carries
`event.delayedUntil` and `event.delayMinutes`, read by its `assign` action. -/
inductive SongEvent
  | PLAY
  | SKIP
  | DELAY (delayedUntil : Option Int) (delayMinutes : Option Int)
  | EDIT
  | DELAY_EXPIRED
  | COMPLETE
deriving DecidableEq, Repr

/-- Typed rejections of the Transition Gateway. The XState machine itself
leaves the state unchanged on a rejected event; the gateway
(`src/services/state-manager.js`, documented in `XSTATE_IMPLEMENTATION.md`
but not present under `src/`) surfaces the rejection per the taxonomy in
section 7 of the spec: `GuardRejected` when the current state lists a
transition for the event but its guard evaluates false, `InvalidTransition`
when the current state lists no transition for the event. -/
inductive TransitionError
  | GuardRejected
  | InvalidTransition
deriving DecidableEq, Repr

/-- Guard `isNextInQueue` of `songMachine`:
`({ context }) => context.isNextInQueue === true`. -/
def isNextInQueueGuard (ctx : SongContext) : Bool :=
  ctx.isNextInQueue

/-- Guard `canBeDelayed` of `songMachine`:
`({ context }) => context.delayedUntil === null`. -/
def canBeDelayed (ctx : SongContext) : Bool :=
  ctx.delayedUntil == none

/-- Guard `canBeEdited` of `songMachine`: `() => true`. -/
def canBeEdited (_ctx : SongContext) : Bool :=
  true

/-- One send of an event to `songMachine`: the transition table from the
`states:` block of `song-machine.js`. Unlisted state/event pairs fall
through to `InvalidTransition`; a listed transition whose guard is false
yields `GuardRejected`. -/
def sendSong (st : SongState) (ctx : SongContext) (e : SongEvent) :
    Except TransitionError (SongState × SongContext) :=
  match st, e with
  | .waiting, .PLAY =>
      if isNextInQueueGuard ctx then .ok (.playing, ctx) else .error .GuardRejected
  | .waiting, .SKIP => .ok (.skipped, ctx)
  | .waiting, .DELAY du dm =>
      if canBeDelayed ctx then
        .ok (.delayed, { ctx with delayedUntil := du, delayMinutes := dm })
      else .error .GuardRejected
  | .waiting, .EDIT =>
      if canBeEdited ctx then .ok (.waiting, ctx) else .error .GuardRejected
  | .delayed, .DELAY_EXPIRED =>
      .ok (.waiting, { ctx with delayedUntil := none, delayMinutes := none })
  | .delayed, .SKIP => .ok (.skipped, ctx)
  | .playing, .COMPLETE => .ok (.done, ctx)
  | .playing, .SKIP => .ok (.skipped, ctx)
  | _, _ => .error .InvalidTransition

/-- Observable effect of a send: on a rejection the machine keeps its state
and context. -/
def stepSong (s : SongState × SongContext) (e : SongEvent) : SongState × SongContext :=
  match sendSong s.1 s.2 e with
  | .ok s2 => s2
  | .error _ => s

/-- The `DELAY_DURATION` delay function of `songMachine`:
zero when `delayedUntil` is unset, otherwise
`Math.max(0, delayedUntil - Date.now())`. -/
def DELAY_DURATION (ctx : SongContext) (now : Int) : Int :=
  match ctx.delayedUntil with
  | none => 0
  | some t => max 0 (t - now)

/-- A live song machine instance together with its pending
`after DELAY_DURATION` timer, kept as the absolute firing time.
XState arms the timer on entering `delayed` and cancels it on exiting
`delayed` through any transition. -/
structure SongActor where
  state : SongState
  ctx : SongContext
  timer : Option Int := none
deriving DecidableEq, Repr

/-- Timer armed by a transition: entering `delayed` schedules the automatic
transition `DELAY_DURATION` milliseconds from now; every other target state
has no pending timer. -/
def armSongTimer (st : SongState) (ctx : SongContext) (now : Int) : Option Int :=
  if st = .delayed then some (now + DELAY_DURATION ctx now) else none

/-- Send an external event to a song actor at time `now`: a rejected event
leaves the actor untouched, an accepted transition re-arms or cancels the
delay timer according to the target state. -/
def songActorSend (a : SongActor) (e : SongEvent) (now : Int) : SongActor :=
  match sendSong a.state a.ctx e with
  | .ok (st, c) => { state := st, ctx := c, timer := armSongTimer st c now }
  | .error _ => a

/-- The scheduler reaching time `now`: a pending timer whose deadline has
passed fires the `after DELAY_DURATION` transition of `songMachine`
(target `waiting`, clearing `delayedUntil` and `delayMinutes`) and is
consumed; otherwise nothing happens. -/
def songTimerFire (a : SongActor) (now : Int) : SongActor :=
  match a.timer with
  | some t =>
      if t ≤ now then
        { state := .waiting,
          ctx := { a.ctx with delayedUntil := none, delayMinutes := none },
          timer := none }
      else a
  | none => a

/-- Session machine states, from the `states:` block of `sessionMachine` in
`src/machines/session-machine.js`. -/
inductive SessionState
  | active
  | paused
  | ending
  | ended
deriving DecidableEq, Repr

/-- The `tipHandles` object of the session context. -/
structure TipHandles where
  venmo_handle : Option String := none
  cashapp_handle : Option String := none
  zelle_handle : Option String := none
deriving DecidableEq, Repr

/-- Session machine context, from the `context:` block of `sessionMachine`. -/
structure SessionContext where
  sessionId : Option String := none
  songDuration : Int := 270
  createdAt : Option String := none
  tipHandles : TipHandles := {}
deriving DecidableEq, Repr

/-- Events accepted by `sessionMachine`, with the payloads read by the
`assign` actions of the two self-loop transitions. -/
inductive SessionEvent
  | PAUSE
  | RESUME
  | END
  | CANCEL_END
  | UPDATE_DURATION (songDuration : Int)
  | UPDATE_TIPS (tipHandles : TipHandles)
deriving DecidableEq, Repr

/-- One send of an event to `sessionMachine`: the transition table from the
`states:` block of `session-machine.js`. The session machine has no guards,
so every rejection is an unlisted state/event pair (`InvalidTransition`). -/
def sendSession (st : SessionState) (ctx : SessionContext) (e : SessionEvent) :
    Except TransitionError (SessionState × SessionContext) :=
  match st, e with
  | .active, .PAUSE => .ok (.paused, ctx)
  | .active, .END => .ok (.ending, ctx)
  | .active, .UPDATE_DURATION d => .ok (.active, { ctx with songDuration := d })
  | .active, .UPDATE_TIPS t => .ok (.active, { ctx with tipHandles := t })
  | .paused, .RESUME => .ok (.active, ctx)
  | .paused, .END => .ok (.ending, ctx)
  | .ending, .CANCEL_END => .ok (.active, ctx)
  | _, _ => .error .InvalidTransition

/-- The fixed grace period of the `ending` state: `after: { 5000: ... }`. -/
def GRACE_PERIOD_MS : Int := 5000

/-- A live session machine instance together with its pending grace-period
timer, kept as the absolute firing time. -/
structure SessionActor where
  state : SessionState
  ctx : SessionContext
  timer : Option Int := none
deriving DecidableEq, Repr

/-- Timer armed by a transition: entering `ending` schedules the automatic
transition to `ended` five seconds from now; every other target state has no
pending timer. -/
def armSessionTimer (st : SessionState) (now : Int) : Option Int :=
  if st = .ending then some (now + GRACE_PERIOD_MS) else none

/-- Send an external event to a session actor at time `now`. -/
def sessionActorSend (a : SessionActor) (e : SessionEvent) (now : Int) : SessionActor :=
  match sendSession a.state a.ctx e with
  | .ok (st, c) => { state := st, ctx := c, timer := armSessionTimer st now }
  | .error _ => a

/-- The scheduler reaching time `now`: a pending grace-period timer whose
deadline has passed fires the `after: { 5000: { target: "ended" } }`
transition and is consumed; otherwise nothing happens. -/
def sessionTimerFire (a : SessionActor) (now : Int) : SessionActor :=
  match a.timer with
  | some t =>
      if t ≤ now then { state := .ended, ctx := a.ctx, timer := none } else a
  | none => a

/-- A row of the `songs` table (schema in `database-sqlite.js`), which is
also the shape of the song objects held by the DJ dashboard. -/
structure Song where
  id : Int
  session_id : String
  singer_name : String
  artist : String
  song_title : String
  position : Int
  status : String
  requested_at : String := ""
deriving DecidableEq, Repr

/-- Stable insertion step for sorting by `position`: the new element goes in
front of the first element with a strictly greater position, so elements
with equal positions keep their relative input order. -/
def insertByPosition (s : Song) : List Song → List Song
  | [] => [s]
  | t :: ts =>
      if s.position ≤ t.position then s :: t :: ts else t :: insertByPosition s ts

/-- Stable sort by ascending `position`. `Array.prototype.sort` with the
comparator `(a, b) => a.position - b.position` is a stable ascending sort
(ECMAScript guarantees sort stability), which this insertion sort realises:
both produce the unique output that is sorted by position and keeps
equal-position elements in input order. -/
def sortByPosition : List Song → List Song
  | [] => []
  | s :: ss => insertByPosition s (sortByPosition ss)

/-- `getNextPlayableSong` from `public/dj/app.js`: filter the songs to
status `waiting`, sort ascending by position, return the first element or
null. -/
def getNextPlayableSong (songs : List Song) : Option Song :=
  match sortByPosition (songs.filter (fun s => s.status == "waiting")) with
  | [] => none
  | s :: _ => some s

/-- The leftmost element of minimal `position` among `s :: l`: on a tie the
earlier element wins. Used to state what the head of the stable sort is. -/
def leftmostMinSong (s : Song) : List Song → Song
  | [] => s
  | t :: ts =>
      if s.position ≤ (leftmostMinSong t ts).position then s
      else leftmostMinSong t ts

/-- The leftmost song of minimal `position` in a list. -/
def leftmostMinByPosition : List Song → Option Song
  | [] => none
  | s :: ss => some (leftmostMinSong s ss)

/-- A row of the `singer_stats` table. -/
structure SingerStat where
  session_id : String
  singer_name : String
  song_count : Int
deriving DecidableEq, Repr

/-- The persistent store of `database-sqlite.js`: the `songs` and
`singer_stats` tables, plus the `AUTOINCREMENT` counter behind `songs.id`.
Row order in `songs` is insertion order. -/
structure Db where
  songs : List Song := []
  singer_stats : List SingerStat := []
  nextId : Int := 1
deriving DecidableEq, Repr

/-- Maximum of a list of integers, or `none` when empty; models SQL
`MAX(position)` over a row set. -/
def listMaxInt : List Int → Option Int
  | [] => none
  | x :: xs =>
      match listMaxInt xs with
      | none => some x
      | some m => some (max x m)

/-- `stmts.getMaxPosition`:
`SELECT COALESCE(MAX(position), 0) as max_pos FROM songs WHERE session_id = ?`. -/
def getMaxPosition (db : Db) (sessionId : String) : Int :=
  match listMaxInt ((db.songs.filter (fun s => s.session_id == sessionId)).map (·.position)) with
  | none => 0
  | some m => m

/-- `stmts.upsertSingerStats`: insert `(sessionId, singerName, 1)` or, on
conflict with the primary key, increment `song_count`. -/
def upsertSingerStats (stats : List SingerStat) (sessionId singerName : String) :
    List SingerStat :=
  if stats.any (fun st => st.session_id == sessionId && st.singer_name == singerName) then
    stats.map (fun st =>
      if st.session_id == sessionId && st.singer_name == singerName then
        { st with song_count := st.song_count + 1 }
      else st)
  else
    stats ++ [{ session_id := sessionId, singer_name := singerName, song_count := 1 }]

/-- `addSong` from `database-sqlite.js`: read `getMaxPosition` for the
session, insert the new row with `position = max_pos + 1` and the literal
status `'waiting'` from `stmts.addSong`, and upsert the singer stats, all
in one transaction. Returns the new store and `lastInsertRowid`. -/
def addSong (db : Db) (sessionId singerName artist songTitle requestedAt : String) :
    Db × Int :=
  let position := getMaxPosition db sessionId + 1
  let song : Song :=
    { id := db.nextId, session_id := sessionId, singer_name := singerName,
      artist := artist, song_title := songTitle, position := position,
      status := "waiting", requested_at := requestedAt }
  ({ songs := db.songs ++ [song],
     singer_stats := upsertSingerStats db.singer_stats sessionId singerName,
     nextId := db.nextId + 1 },
   db.nextId)

/-- `updateSongStatus` from `database-sqlite.js`, reached by the HTTP route
`PUT /api/songs/:id/status` in `server.js`:
`UPDATE songs SET status = ? WHERE id = ?` — an unconditional write with no
guard on the current status. -/
def updateSongStatus (db : Db) (songId : Int) (status : String) : Db :=
  { db with
    songs := db.songs.map (fun s => if s.id == songId then { s with status := status } else s) }

/-- `updateSongPosition` from `database-sqlite.js`:
`UPDATE songs SET position = ? WHERE id = ?`. -/
def updateSongPosition (db : Db) (songId : Int) (position : Int) : Db :=
  { db with
    songs := db.songs.map (fun s => if s.id == songId then { s with position := position } else s) }

/-- `deleteSong` from `database-sqlite.js`: `DELETE FROM songs WHERE id = ?`. -/
def deleteSong (db : Db) (songId : Int) : Db :=
  { db with songs := db.songs.filter (fun s => !(s.id == songId)) }

/-- The loop body of `reorderSongs` run to completion without the
transaction wrapper: one `updateSongPosition` per supplied pair, in order. -/
def applyPositionUpdates (db : Db) (pairs : List (Int × Int)) : Db :=
  pairs.foldl (fun d p => updateSongPosition d p.1 p.2) db

/-- The loop inside `db.transaction` in `reorderSongs`, with `fails i`
modelling whether the underlying SQLite statement of the i-th iteration
throws: the loop stops at the first throwing statement. -/
def runReorderLoop (db : Db) : List (Int × Int) → (Nat → Bool) → Except Unit Db
  | [], _ => .ok db
  | p :: ps, fails =>
      if fails 0 then .error ()
      else runReorderLoop (updateSongPosition db p.1 p.2) ps (fun i => fails (i + 1))

/-- `reorderSongs` from `database-sqlite.js`: the position updates run
inside `db.transaction(...)` (better-sqlite3), which commits when the
wrapped function returns and rolls the database back to its pre-transaction
state when it throws. The Boolean reports whether the transaction
committed. The `sessionId` argument is accepted but, as in the source, not
used by the updates. -/
def reorderSongs (db : Db) (_sessionId : String) (pairs : List (Int × Int))
    (fails : Nat → Bool) : Db × Bool :=
  match runReorderLoop db pairs fails with
  | .ok d => (d, true)
  | .error _ => (db, false)

/-- The position a song ends up with after a list of `(id, position)`
overwrites is the last pair naming its id, or its old position. -/
def lastAssigned (pairs : List (Int × Int)) (id : Int) (dflt : Int) : Int :=
  pairs.foldl (fun acc p => if p.1 == id then p.2 else acc) dflt

/-- Member names a plain object literal inherits from `Object.prototype`.
JavaScript bracket lookup consults the prototype chain, so
`statusMap[status]` for these keys yields the inherited member — a function
object, or `Object.prototype` itself for the `__proto__` accessor — all of
which are truthy, so `|| dflt` passes them through. -/
def objectPrototypeMembers : List String :=
  ["constructor", "toString", "toLocaleString", "valueOf", "hasOwnProperty",
   "isPrototypeOf", "propertyIsEnumerable", "__proto__",
   "__defineGetter__", "__defineSetter__", "__lookupGetter__",
   "__lookupSetter__"]

/-- Result of the JavaScript expression `statusMap[status] || dflt`: either
a status string (an own property of the literal, or the string fallback),
or a truthy member inherited from `Object.prototype`. -/
inductive JsValue
  | str (s : String)
  | inheritedMember (name : String)
deriving DecidableEq, Repr

/-- `getStateFromStatus` from `src/machines/song-machine.js`, with
JavaScript property-lookup semantics: an own key of the `statusMap` literal
yields its string value; a key naming an inherited `Object.prototype`
member yields that truthy member, which `|| 'waiting'` passes through
unchanged; any other key yields `undefined` and the fallback `'waiting'`
is returned. -/
def songGetStateFromStatus (status : String) : JsValue :=
  if status = "waiting" then .str "waiting"
  else if status = "delayed" then .str "delayed"
  else if status = "playing" then .str "playing"
  else if status = "done" then .str "done"
  else if status = "skipped" then .str "skipped"
  else if status ∈ objectPrototypeMembers then .inheritedMember status
  else .str "waiting"

/-- `getStateFromStatus` from `src/machines/session-machine.js`, with the
same JavaScript property-lookup semantics and the fallback `'active'`
(`statusMap[status] || 'active'`). -/
def sessionGetStateFromStatus (status : String) : JsValue :=
  if status = "active" then .str "active"
  else if status = "paused" then .str "paused"
  else if status = "ending" then .str "ending"
  else if status = "ended" then .str "ended"
  else if status ∈ objectPrototypeMembers then .inheritedMember status
  else .str "active"

/-- Modelled from the spec: the Transition Gateway / Actor Registry
(`src/services/state-manager.js`, described in `XSTATE_IMPLEMENTATION.md`
and sections 4.4 and 9 of the spec) is not present under `src/`; only its
documentation and callers are. Per the spec, immediately before evaluating
a PLAY event the gateway re-derives `isNextInQueue` from the Queue Position
Model over the current sibling songs of the session and injects it into the
machine context, replacing whatever value was cached when the instance was
created. -/
def gatewayPlay (songs : List Song) (song : Song) (st : SongState)
    (cached : SongContext) : Except TransitionError (SongState × SongContext) :=
  let fresh := decide (getNextPlayableSong songs = some song)
  sendSong st { cached with isNextInQueue := fresh } .PLAY

theorem insertByPosition_head_cons (s t : Song) (ts : List Song) :
    (insertByPosition s (t :: ts)).head? =
      some (if s.position ≤ t.position then s else t) := by
  by_cases h : s.position ≤ t.position <;> simp [insertByPosition, h]

theorem leftmostMinSong_mem (s : Song) (l : List Song) :
    leftmostMinSong s l ∈ s :: l := by
  induction l generalizing s with
  | nil => simp [leftmostMinSong]
  | cons t ts ih =>
      simp only [leftmostMinSong]
      by_cases hc : s.position ≤ (leftmostMinSong t ts).position
      · rw [if_pos hc]
        exact List.mem_cons_self _ _
      · rw [if_neg hc]
        exact List.mem_cons_of_mem _ (ih t)

theorem leftmostMinSong_le (s : Song) (l : List Song) :
    (leftmostMinSong s l).position ≤ s.position ∧
      ∀ t ∈ l, (leftmostMinSong s l).position ≤ t.position := by
  induction l generalizing s with
  | nil => simp [leftmostMinSong]
  | cons t ts ih =>
      simp only [leftmostMinSong]
      by_cases hc : s.position ≤ (leftmostMinSong t ts).position
      · rw [if_pos hc]
        refine ⟨le_refl _, ?_⟩
        intro u hu
        rcases List.mem_cons.mp hu with rfl | hu2
        · exact le_trans hc (ih u).1
        · exact le_trans hc ((ih t).2 u hu2)
      · rw [if_neg hc]
        refine ⟨le_of_lt (lt_of_not_le hc), ?_⟩
        intro u hu
        rcases List.mem_cons.mp hu with rfl | hu2
        · exact (ih u).1
        · exact (ih t).2 u hu2

theorem sortByPosition_head_cons (s : Song) (ss : List Song) :
    (sortByPosition (s :: ss)).head? = some (leftmostMinSong s ss) := by
  induction ss generalizing s with
  | nil => rfl
  | cons t ts ih =>
      have iht := ih t
      cases hL : sortByPosition (t :: ts) with
      | nil => rw [hL] at iht; cases iht
      | cons u us =>
          rw [hL] at iht
          have hu : u = leftmostMinSong t ts := by
            simpa using iht
          show (insertByPosition s (sortByPosition (t :: ts))).head?
            = some (leftmostMinSong s (t :: ts))
          rw [hL, insertByPosition_head_cons, hu]
          simp only [leftmostMinSong]

theorem sortByPosition_head (l : List Song) :
    (sortByPosition l).head? = leftmostMinByPosition l := by
  cases l with
  | nil => rfl
  | cons s ss => rw [sortByPosition_head_cons]; rfl

theorem leftmostMinByPosition_mem {l : List Song} {s : Song}
    (h : leftmostMinByPosition l = some s) : s ∈ l := by
  cases l with
  | nil => cases h
  | cons a as =>
      have : s = leftmostMinSong a as := by simpa [leftmostMinByPosition] using h.symm
      rw [this]
      exact leftmostMinSong_mem a as

theorem leftmostMinByPosition_eq_none_iff (l : List Song) :
    leftmostMinByPosition l = none ↔ l = [] := by
  cases l <;> simp [leftmostMinByPosition]

theorem leftmostMinByPosition_le {l : List Song} {s : Song}
    (h : leftmostMinByPosition l = some s) :
    ∀ t ∈ l, s.position ≤ t.position := by
  cases l with
  | nil => cases h
  | cons a as =>
      have hs : s = leftmostMinSong a as := by
        simpa [leftmostMinByPosition] using h.symm
      intro t ht
      rcases List.mem_cons.mp ht with rfl | ht2
      · rw [hs]; exact (leftmostMinSong_le t as).1
      · rw [hs]; exact (leftmostMinSong_le a as).2 t ht2

theorem getNextPlayableSong_eq_head (songs : List Song) :
    getNextPlayableSong songs
      = (sortByPosition (songs.filter (fun s => s.status == "waiting"))).head? := by
  unfold getNextPlayableSong
  cases sortByPosition (songs.filter (fun s => s.status == "waiting")) <;> rfl

/-- C3: for every list of songs, `getNextPlayableSong` returns the song with
the minimal position among those whose status is `waiting` and `none` when no
song is waiting; on a tie it deterministically returns the waiting song that
came first in the input (the stable-sort tie-break). -/
theorem getNextPlayableSong_spec (songs : List Song) :
    getNextPlayableSong songs
      = leftmostMinByPosition (songs.filter (fun s => s.status == "waiting")) ∧
    (getNextPlayableSong songs = none
      ↔ songs.filter (fun s => s.status == "waiting") = []) ∧
    ∀ s, getNextPlayableSong songs = some s →
      s ∈ songs ∧ s.status = "waiting" ∧
        ∀ t ∈ songs, t.status = "waiting" → s.position ≤ t.position := by
  have key : getNextPlayableSong songs
      = leftmostMinByPosition (songs.filter (fun s => s.status == "waiting")) := by
    rw [getNextPlayableSong_eq_head, sortByPosition_head]
  refine ⟨key, ?_, ?_⟩
  · rw [key, leftmostMinByPosition_eq_none_iff]
  · intro s hs
    rw [key] at hs
    have hmem := leftmostMinByPosition_mem hs
    have hmem2 := List.mem_filter.mp hmem
    refine ⟨hmem2.1, by simpa using hmem2.2, ?_⟩
    intro t ht htw
    exact leftmostMinByPosition_le hs t
      (List.mem_filter.mpr ⟨ht, by simpa using htw⟩)

/-- Witness for C3 at a concrete queue: two waiting songs sharing position 2
behind a done song; the first waiting one in input order is returned. -/
theorem getNextPlayableSong_spec_witness :
    getNextPlayableSong
        [{ id := 1, session_id := "S", singer_name := "a", artist := "x",
           song_title := "t1", position := 1, status := "done" },
         { id := 2, session_id := "S", singer_name := "b", artist := "y",
           song_title := "t2", position := 2, status := "waiting" },
         { id := 3, session_id := "S", singer_name := "c", artist := "z",
           song_title := "t3", position := 2, status := "waiting" }]
      = some { id := 2, session_id := "S", singer_name := "b", artist := "y",
               song_title := "t2", position := 2, status := "waiting" } := by
  have h := (getNextPlayableSong_spec
      [{ id := 1, session_id := "S", singer_name := "a", artist := "x",
         song_title := "t1", position := 1, status := "done" },
       { id := 2, session_id := "S", singer_name := "b", artist := "y",
         song_title := "t2", position := 2, status := "waiting" },
       { id := 3, session_id := "S", singer_name := "c", artist := "z",
         song_title := "t3", position := 2, status := "waiting" }]).1
  rw [h]
  decide

/-- C1: in state `waiting`, a PLAY event moves `songMachine` to `playing`
exactly when the `isNextInQueue` guard holds of the current context; when
the guard is false the event is rejected as `GuardRejected` and the state
and the context are left unchanged. -/
theorem play_guard_spec (ctx : SongContext) :
    (isNextInQueueGuard ctx = true →
       sendSong .waiting ctx .PLAY = .ok (.playing, ctx)) ∧
    (isNextInQueueGuard ctx = false →
       sendSong .waiting ctx .PLAY = .error .GuardRejected ∧
       stepSong (.waiting, ctx) .PLAY = (.waiting, ctx)) := by
  constructor
  · intro h
    simp [sendSong, h]
  · intro h
    constructor <;> simp [sendSong, stepSong, h]

/-- Witness for C1 at the two concrete guard values. -/
theorem play_guard_spec_witness :
    sendSong .waiting { isNextInQueue := true } .PLAY
        = .ok (.playing, { isNextInQueue := true }) ∧
    sendSong .waiting { isNextInQueue := false } .PLAY = .error .GuardRejected :=
  ⟨(play_guard_spec { isNextInQueue := true }).1 rfl,
   ((play_guard_spec { isNextInQueue := false }).2 rfl).1⟩

/-- C2: evaluated through the gateway, a PLAY event consults the value
recomputed from the current session song set: the `isNextInQueue` value
cached in the machine context is irrelevant to the outcome, and PLAY is
accepted for a song only if that song is, at send time, the waiting song
with the lowest position in its session. -/
theorem gateway_play_recomputes (songs : List Song) (song : Song)
    (st : SongState) (cached : SongContext) :
    (∀ b, gatewayPlay songs song st { cached with isNextInQueue := b }
        = gatewayPlay songs song st cached) ∧
    (∀ st2 ctx2, gatewayPlay songs song st cached = .ok (st2, ctx2) →
       st2 = .playing ∧ getNextPlayableSong songs = some song ∧
         song ∈ songs ∧ song.status = "waiting" ∧
         ∀ t ∈ songs, t.status = "waiting" → song.position ≤ t.position) := by
  constructor
  · intro b
    rfl
  · intro st2 ctx2 h
    cases st <;>
      simp only [gatewayPlay, sendSong, isNextInQueueGuard] at h <;>
      try cases h
    by_cases hp : getNextPlayableSong songs = some song
    · simp only [hp, decide_eq_true_eq, if_pos] at h
      injection h with h1
      injection h1 with ha hb
      have hst2 : st2 = .playing := ha.symm
      have hL : leftmostMinByPosition
          (songs.filter (fun s => s.status == "waiting")) = some song := by
        rw [← sortByPosition_head, ← getNextPlayableSong_eq_head]
        exact hp
      have hmem := List.mem_filter.mp (leftmostMinByPosition_mem hL)
      refine ⟨hst2, hp, hmem.1, by simpa using hmem.2, ?_⟩
      intro t ht htw
      exact leftmostMinByPosition_le hL t
        (List.mem_filter.mpr ⟨ht, by simpa using htw⟩)
    · rw [if_neg (by simp [hp])] at h
      cases h

/-- A one-song queue used by the C2 witness. -/
def soloWaitingSong : Song :=
  { id := 1, session_id := "S", singer_name := "ann", artist := "ar",
    song_title := "ti", position := 1, status := "waiting" }

/-- Witness for C2: on a queue whose only song is waiting at position 1,
the gateway accepts PLAY and the conclusions hold at that song. -/
theorem gateway_play_recomputes_witness :
    SongState.playing = SongState.playing ∧
      getNextPlayableSong [soloWaitingSong] = some soloWaitingSong ∧
      soloWaitingSong ∈ [soloWaitingSong] ∧
      soloWaitingSong.status = "waiting" ∧
      ∀ t ∈ [soloWaitingSong], t.status = "waiting" →
        soloWaitingSong.position ≤ t.position :=
  (gateway_play_recomputes [soloWaitingSong] soloWaitingSong .waiting {}).2
    .playing { isNextInQueue := true } rfl

/-- C4 counterexample: a song whose status is the terminal `done` has its
status overwritten to `waiting` by the exposed direct status write
(`PUT /api/songs/:id/status` calling `updateSongStatus`), which is not a
deletion. -/
theorem terminal_direct_write_counterexample :
    (updateSongStatus
        { songs := [{ id := 1, session_id := "S", singer_name := "ann",
                      artist := "ar", song_title := "ti", position := 1,
                      status := "done" }],
          singer_stats := [], nextId := 2 } 1 "waiting").songs
      = [{ id := 1, session_id := "S", singer_name := "ann", artist := "ar",
           song_title := "ti", position := 1, status := "waiting" }]
    ∧ ("waiting" : String) ≠ "done" := by
  exact ⟨rfl, by decide⟩

/-- C4 amended: at the machine layer `done` and `skipped` are terminal —
every event is rejected as `InvalidTransition` with state and context
unchanged — but the exposed legacy status route bypasses the machine:
`updateSongStatus` overwrites the status of the addressed row
unconditionally, whatever its current status, so a terminal song can be
moved to another status by a direct write. -/
theorem terminal_machine_but_unguarded_write :
    (∀ (ctx : SongContext) (e : SongEvent),
       sendSong .done ctx e = .error .InvalidTransition ∧
       sendSong .skipped ctx e = .error .InvalidTransition ∧
       stepSong (.done, ctx) e = (.done, ctx) ∧
       stepSong (.skipped, ctx) e = (.skipped, ctx)) ∧
    (∀ (db : Db) (id : Int) (st : String),
       (updateSongStatus db id st).songs
         = db.songs.map (fun s => if s.id == id then { s with status := st } else s)) := by
  constructor
  · intro ctx e
    cases e <;> exact ⟨rfl, rfl, rfl, rfl⟩
  · intro db id st
    rfl

/-- C8 counterexample: after an actual DELAY from `waiting` the machine is
in `delayed` with `delayedUntil` set; a second DELAY there is rejected as
`InvalidTransition` — the `delayed` state lists no DELAY transition, so the
`canBeDelayed` guard is never consulted — not as `GuardRejected`. -/
theorem delay_on_delayed_counterexample :
    sendSong .waiting {} (.DELAY (some 1000) (some 5))
        = .ok (.delayed, { delayedUntil := some 1000, delayMinutes := some 5 }) ∧
    sendSong .delayed { delayedUntil := some 1000, delayMinutes := some 5 }
        (.DELAY (some 2000) (some 5)) = .error .InvalidTransition ∧
    TransitionError.InvalidTransition ≠ TransitionError.GuardRejected := by
  exact ⟨rfl, rfl, by decide⟩

/-- C8 amended: a DELAY sent in any state other than `waiting` — including
`delayed` itself — is rejected as `InvalidTransition`, since only `waiting`
lists a DELAY transition; the `canBeDelayed` guard is consulted only in
`waiting`, where it rejects with `GuardRejected` when `delayedUntil` is
already set; in every rejected case the state and context are unchanged. -/
theorem delay_rejection_modes (ctx : SongContext) (du dm : Option Int) :
    (∀ st, st ≠ .waiting →
       sendSong st ctx (.DELAY du dm) = .error .InvalidTransition ∧
       stepSong (st, ctx) (.DELAY du dm) = (st, ctx)) ∧
    (ctx.delayedUntil ≠ none →
       sendSong .waiting ctx (.DELAY du dm) = .error .GuardRejected ∧
       stepSong (.waiting, ctx) (.DELAY du dm) = (.waiting, ctx)) := by
  constructor
  · intro st hst
    cases st
    · exact absurd rfl hst
    · exact ⟨rfl, rfl⟩
    · exact ⟨rfl, rfl⟩
    · exact ⟨rfl, rfl⟩
    · exact ⟨rfl, rfl⟩
  · intro h
    have hg : canBeDelayed ctx = false := by
      simp [canBeDelayed]
      exact h
    constructor <;> simp [sendSong, stepSong, hg]

/-- Witness for C8 at concrete states and a context already carrying a
delay. -/
theorem delay_rejection_modes_witness :
    (sendSong .playing { delayedUntil := some 7 } (.DELAY (some 9) (some 1))
        = .error .InvalidTransition ∧
      stepSong (.playing, { delayedUntil := some 7 }) (.DELAY (some 9) (some 1))
        = (.playing, { delayedUntil := some 7 })) ∧
    (sendSong .waiting { delayedUntil := some 7 } (.DELAY (some 9) (some 1))
        = .error .GuardRejected ∧
      stepSong (.waiting, { delayedUntil := some 7 }) (.DELAY (some 9) (some 1))
        = (.waiting, { delayedUntil := some 7 })) :=
  ⟨(delay_rejection_modes { delayedUntil := some 7 } (some 9) (some 1)).1 .playing
      (by decide),
   (delay_rejection_modes { delayedUntil := some 7 } (some 9) (some 1)).2
      (by decide)⟩

/-- C9 counterexample: in session "S", add two songs (positions 1 and 2),
delete the first; one song remains, so count + 1 = 2, but the next added
song receives position MAX(position) + 1 = 3. -/
theorem addSong_position_counterexample :
    ((addSong (deleteSong (addSong (addSong {} "S" "alice" "a1" "t1" "r1").1
          "S" "bob" "a2" "t2" "r2").1 1) "S" "carol" "a3" "t3" "r3").1.songs.map
        (fun s => s.position))
      = [2, 3] ∧
    (deleteSong (addSong (addSong {} "S" "alice" "a1" "t1" "r1").1
        "S" "bob" "a2" "t2" "r2").1 1).songs.length + 1 = 2 ∧
    (3 : Int) ≠ 2 := by
  exact ⟨rfl, rfl, by decide⟩

/-- C9 amended: every new request is inserted with status `waiting` and with
position equal to the maximum position currently present in its session plus
one (`COALESCE(MAX(position), 0) + 1`); this equals the count of the
session's existing songs plus one only while the positions are gap-free. -/
theorem addSong_spec (db : Db) (sid nm ar ti rq : String) :
    (addSong db sid nm ar ti rq).1.songs
      = db.songs ++
        [{ id := db.nextId, session_id := sid, singer_name := nm, artist := ar,
           song_title := ti, position := getMaxPosition db sid + 1,
           status := "waiting", requested_at := rq }] ∧
    (addSong db sid nm ar ti rq).2 = db.nextId :=
  ⟨rfl, rfl⟩

/-- C10 counterexample: `"constructor"` is not a recognized state name, yet
neither hydration function maps it to the initial state — the JavaScript
lookup finds the truthy `Object.prototype.constructor` on the prototype
chain and `||` passes it through, so the machine layer does not receive a
state name at all. -/
theorem getStateFromStatus_prototype_counterexample :
    songGetStateFromStatus "constructor" = .inheritedMember "constructor" ∧
    songGetStateFromStatus "constructor" ≠ .str "waiting" ∧
    sessionGetStateFromStatus "constructor" = .inheritedMember "constructor" ∧
    sessionGetStateFromStatus "constructor" ≠ .str "active" := by
  exact ⟨rfl, by decide, rfl, by decide⟩

/-- C10 amended: hydration never throws, and a recognized status maps to
itself; but the silent fallback to the initial state holds only for status
strings that are also not names of members inherited from
`Object.prototype` — for those (such as `constructor` or `toString`) the
lookup returns the truthy inherited member instead of the initial state;
every other unrecognized string maps to `waiting` for songs and `active`
for sessions. -/
theorem getStateFromStatus_lookup (s : String) :
    (s ∈ ["waiting", "delayed", "playing", "done", "skipped"] →
       songGetStateFromStatus s = .str s) ∧
    (s ∉ ["waiting", "delayed", "playing", "done", "skipped"] →
       s ∈ objectPrototypeMembers →
       songGetStateFromStatus s = .inheritedMember s) ∧
    (s ∉ ["waiting", "delayed", "playing", "done", "skipped"] →
       s ∉ objectPrototypeMembers →
       songGetStateFromStatus s = .str "waiting") ∧
    (s ∈ ["active", "paused", "ending", "ended"] →
       sessionGetStateFromStatus s = .str s) ∧
    (s ∉ ["active", "paused", "ending", "ended"] →
       s ∈ objectPrototypeMembers →
       sessionGetStateFromStatus s = .inheritedMember s) ∧
    (s ∉ ["active", "paused", "ending", "ended"] →
       s ∉ objectPrototypeMembers →
       sessionGetStateFromStatus s = .str "active") := by
  refine ⟨?_, ?_, ?_, ?_, ?_, ?_⟩
  · intro h
    simp only [List.mem_cons, List.not_mem_nil, or_false] at h
    rcases h with rfl | rfl | rfl | rfl | rfl <;> rfl
  · intro h hm
    simp only [List.mem_cons, List.not_mem_nil, or_false, not_or] at h
    obtain ⟨h1, h2, h3, h4, h5⟩ := h
    simp [songGetStateFromStatus, h1, h2, h3, h4, h5, hm]
  · intro h hm
    simp only [List.mem_cons, List.not_mem_nil, or_false, not_or] at h
    obtain ⟨h1, h2, h3, h4, h5⟩ := h
    simp [songGetStateFromStatus, h1, h2, h3, h4, h5, hm]
  · intro h
    simp only [List.mem_cons, List.not_mem_nil, or_false] at h
    rcases h with rfl | rfl | rfl | rfl <;> rfl
  · intro h hm
    simp only [List.mem_cons, List.not_mem_nil, or_false, not_or] at h
    obtain ⟨h1, h2, h3, h4⟩ := h
    simp [sessionGetStateFromStatus, h1, h2, h3, h4, hm]
  · intro h hm
    simp only [List.mem_cons, List.not_mem_nil, or_false, not_or] at h
    obtain ⟨h1, h2, h3, h4⟩ := h
    simp [sessionGetStateFromStatus, h1, h2, h3, h4, hm]

/-- Witness for C10 at a plain corrupt string (falls back to the initial
state), a recognized string of each machine, and a prototype member name
(passed through as the inherited value). -/
theorem getStateFromStatus_lookup_witness :
    songGetStateFromStatus "corrupt" = .str "waiting" ∧
    sessionGetStateFromStatus "corrupt" = .str "active" ∧
    songGetStateFromStatus "skipped" = .str "skipped" ∧
    sessionGetStateFromStatus "paused" = .str "paused" ∧
    songGetStateFromStatus "toString" = .inheritedMember "toString" ∧
    sessionGetStateFromStatus "valueOf" = .inheritedMember "valueOf" :=
  ⟨(getStateFromStatus_lookup "corrupt").2.2.1 (by decide) (by decide),
   (getStateFromStatus_lookup "corrupt").2.2.2.2.2 (by decide) (by decide),
   (getStateFromStatus_lookup "skipped").1 (by decide),
   (getStateFromStatus_lookup "paused").2.2.2.1 (by decide),
   (getStateFromStatus_lookup "toString").2.1 (by decide) (by decide),
   (getStateFromStatus_lookup "valueOf").2.2.2.2.1 (by decide) (by decide)⟩

theorem lastAssigned_cons (p : Int × Int) (ps : List (Int × Int)) (id dflt : Int) :
    lastAssigned (p :: ps) id dflt
      = lastAssigned ps id (if p.1 == id then p.2 else dflt) := rfl

theorem applyPositionUpdates_songs (db : Db) (pairs : List (Int × Int)) :
    (applyPositionUpdates db pairs).songs
      = db.songs.map (fun s => { s with position := lastAssigned pairs s.id s.position }) := by
  induction pairs generalizing db with
  | nil =>
      show db.songs
        = db.songs.map (fun s => { s with position := lastAssigned [] s.id s.position })
      have he : (fun s : Song => { s with position := lastAssigned [] s.id s.position })
          = id := by
        funext s
        rfl
      rw [he, List.map_id]
  | cons p ps ih =>
      show (applyPositionUpdates (updateSongPosition db p.1 p.2) ps).songs = _
      rw [ih]
      simp only [updateSongPosition, List.map_map]
      congr 1
      funext s
      rw [Function.comp_apply, lastAssigned_cons]
      by_cases hc : s.id = p.1
      · have hb : (s.id == p.1) = true := by simp [hc]
        have hb2 : (p.1 == s.id) = true := by simp [hc]
        rw [if_pos hb, if_pos hb2]
      · have hb : (s.id == p.1) = false := by simp [hc]
        have hb2 : (p.1 == s.id) = false := by
          simp
          intro h2
          exact hc h2.symm
        rw [if_neg (by simp [hb]), if_neg (by simp [hb2])]

theorem runReorderLoop_ok {db d : Db} {pairs : List (Int × Int)} {fails : Nat → Bool}
    (h : runReorderLoop db pairs fails = .ok d) :
    d = applyPositionUpdates db pairs := by
  induction pairs generalizing db fails with
  | nil =>
      cases h
      rfl
  | cons p ps ih =>
      simp only [runReorderLoop] at h
      by_cases hf : fails 0 = true
      · rw [if_pos hf] at h
        cases h
      · rw [if_neg hf] at h
        exact ih h

/-- C5: `reorderSongs` is atomic from the caller's perspective — inside
`db.transaction`, either the whole loop runs and every supplied
`(id, position)` pair takes effect (each addressed row ends at the last
position assigned to its id, rows are neither added nor removed, and no
other field is touched), or some statement throws and the rolled-back
store the caller observes is exactly the original. -/
theorem reorderSongs_atomic (db : Db) (sid : String) (pairs : List (Int × Int))
    (fails : Nat → Bool) :
    ((reorderSongs db sid pairs fails).2 = false →
       (reorderSongs db sid pairs fails).1 = db) ∧
    ((reorderSongs db sid pairs fails).2 = true →
       (reorderSongs db sid pairs fails).1.songs
         = db.songs.map (fun s => { s with position := lastAssigned pairs s.id s.position })) := by
  unfold reorderSongs
  cases h : runReorderLoop db pairs fails with
  | ok d =>
      refine ⟨?_, ?_⟩
      · intro hfalse
        cases hfalse
      · intro _
        show d.songs = _
        rw [runReorderLoop_ok h]
        exact applyPositionUpdates_songs db pairs
  | error e =>
      refine ⟨?_, ?_⟩
      · intro _
        rfl
      · intro htrue
        cases htrue

/-- A three-song queue used by the C5 witness. -/
def threeSongDb : Db :=
  { songs :=
      [{ id := 1, session_id := "S", singer_name := "ann", artist := "a1",
         song_title := "t1", position := 1, status := "waiting" },
       { id := 2, session_id := "S", singer_name := "bob", artist := "a2",
         song_title := "t2", position := 2, status := "waiting" },
       { id := 3, session_id := "S", singer_name := "cat", artist := "a3",
         song_title := "t3", position := 3, status := "waiting" }],
    singer_stats := [], nextId := 4 }

/-- Witness for C5: swapping positions 1 and 3 with no failure commits the
full renumbering; with the first statement failing, the rolled-back store is
the original. -/
theorem reorderSongs_atomic_witness :
    (reorderSongs threeSongDb "S" [(1, 3), (3, 1)] (fun _ => false)).1.songs
        = threeSongDb.songs.map
            (fun s => { s with position := lastAssigned [(1, 3), (3, 1)] s.id s.position }) ∧
    (reorderSongs threeSongDb "S" [(1, 3), (3, 1)] (fun _ => true)).1 = threeSongDb :=
  ⟨(reorderSongs_atomic threeSongDb "S" [(1, 3), (3, 1)] (fun _ => false)).2 rfl,
   (reorderSongs_atomic threeSongDb "S" [(1, 3), (3, 1)] (fun _ => true)).1 rfl⟩

/-- C6: a song entering `delayed` through a DELAY carrying a delayed-until
timestamp arms the auto-expiry timer for `max 0 (delayedUntil - now)`
computed at entry; with no other event the timer fires once the deadline is
reached and moves the song back to `waiting` with both `delayedUntil` and
`delayMinutes` cleared; it does not fire early; leaving `delayed` through
SKIP cancels it so it never fires afterwards; and it never fires twice. -/
theorem delayed_auto_expiry (ctx : SongContext) (du dm now : Int) (a : SongActor)
    (hnone : ctx.delayedUntil = none)
    (ha : songActorSend { state := .waiting, ctx := ctx, timer := none }
            (.DELAY (some du) (some dm)) now = a) :
    (a.state = .delayed ∧ a.ctx.delayedUntil = some du ∧
       a.ctx.delayMinutes = some dm ∧ a.timer = some (now + max 0 (du - now))) ∧
    (∀ t, now + max 0 (du - now) ≤ t →
       songTimerFire a t
         = { state := .waiting,
             ctx := { ctx with delayedUntil := none, delayMinutes := none },
             timer := none }) ∧
    (∀ t, t < now + max 0 (du - now) → songTimerFire a t = a) ∧
    (∀ t1 t2, songTimerFire (songActorSend a .SKIP t1) t2
       = songActorSend a .SKIP t1) ∧
    (∀ t1 t2, now + max 0 (du - now) ≤ t1 →
       songTimerFire (songTimerFire a t1) t2 = songTimerFire a t1) := by
  have hguard : canBeDelayed ctx = true := by
    simp [canBeDelayed, hnone]
  have ha2 : a = ⟨.delayed,
      { ctx with delayedUntil := some du, delayMinutes := some dm },
      some (now + max 0 (du - now))⟩ := by
    rw [← ha]
    simp [songActorSend, sendSong, hguard, armSongTimer, DELAY_DURATION]
  subst ha2
  refine ⟨⟨rfl, rfl, rfl, rfl⟩, ?_, ?_, ?_, ?_⟩
  · intro t ht
    simp only [songTimerFire]
    rw [if_pos ht]
  · intro t ht
    simp only [songTimerFire]
    rw [if_neg (not_le.mpr ht)]
  · intro t1 t2
    simp [songActorSend, sendSong, armSongTimer, songTimerFire]
  · intro t1 t2 ht
    simp only [songTimerFire]
    rw [if_pos ht]

/-- Witness for C6: a song delayed at time 0 until time 300000 (five
minutes) fires back to `waiting` at the deadline with both delay fields
cleared, and a SKIP issued meanwhile cancels the pending fire. -/
theorem delayed_auto_expiry_witness :
    songTimerFire (songActorSend { state := .waiting, ctx := {}, timer := none }
        (.DELAY (some 300000) (some 5)) 0) 300000
      = { state := .waiting,
          ctx := { delayedUntil := none, delayMinutes := none },
          timer := none } ∧
    songTimerFire (songActorSend (songActorSend
          { state := .waiting, ctx := {}, timer := none }
          (.DELAY (some 300000) (some 5)) 0) .SKIP 1000) 300000
      = songActorSend (songActorSend
          { state := .waiting, ctx := {}, timer := none }
          (.DELAY (some 300000) (some 5)) 0) .SKIP 1000 :=
  ⟨(delayed_auto_expiry {} 300000 5 0 _ rfl rfl).2.1 300000 (by decide),
   (delayed_auto_expiry {} 300000 5 0 _ rfl rfl).2.2.2.1 1000 300000⟩

/-- C7: a session entering `ending` arms the fixed five-second grace timer;
with no CANCEL_END the timer fires once the deadline is reached and moves
the session to `ended`; it does not fire early; a CANCEL_END issued before
expiry returns the session to `active` and cancels the timer, so `ended` is
not entered afterwards; the timer never fires twice; and `ended` is
terminal — it rejects every event as `InvalidTransition`. -/
theorem session_ending_grace (ctx : SessionContext) (now : Int) (a : SessionActor)
    (ha : sessionActorSend { state := .active, ctx := ctx, timer := none } .END now = a) :
    (a.state = .ending ∧ a.ctx = ctx ∧ a.timer = some (now + GRACE_PERIOD_MS)) ∧
    (∀ t, now + GRACE_PERIOD_MS ≤ t →
       sessionTimerFire a t = { state := .ended, ctx := ctx, timer := none }) ∧
    (∀ t, t < now + GRACE_PERIOD_MS → sessionTimerFire a t = a) ∧
    (∀ t1 t2, t1 < now + GRACE_PERIOD_MS →
       sessionActorSend a .CANCEL_END t1
           = { state := .active, ctx := ctx, timer := none } ∧
         sessionTimerFire (sessionActorSend a .CANCEL_END t1) t2
           = sessionActorSend a .CANCEL_END t1) ∧
    (∀ t1 t2, now + GRACE_PERIOD_MS ≤ t1 →
       sessionTimerFire (sessionTimerFire a t1) t2 = sessionTimerFire a t1) ∧
    (∀ (c : SessionContext) (e : SessionEvent),
       sendSession .ended c e = .error .InvalidTransition) := by
  have ha2 : a = ⟨.ending, ctx, some (now + GRACE_PERIOD_MS)⟩ := by
    rw [← ha]
    simp [sessionActorSend, sendSession, armSessionTimer]
  subst ha2
  refine ⟨⟨rfl, rfl, rfl⟩, ?_, ?_, ?_, ?_, ?_⟩
  · intro t ht
    simp only [sessionTimerFire]
    rw [if_pos ht]
  · intro t ht
    simp only [sessionTimerFire]
    rw [if_neg (not_le.mpr ht)]
  · intro t1 t2 _
    constructor
    · simp [sessionActorSend, sendSession, armSessionTimer]
    · simp [sessionActorSend, sendSession, armSessionTimer, sessionTimerFire]
  · intro t1 t2 ht
    simp only [sessionTimerFire]
    rw [if_pos ht]
  · intro c e
    cases e <;> rfl

/-- Witness for C7: a session that receives END at time 0 transitions to
`ended` when the timer fires at 5000, and a CANCEL_END at time 100 returns
it to `active` after which a later fire changes nothing. -/
theorem session_ending_grace_witness :
    sessionTimerFire (sessionActorSend
        { state := .active, ctx := {}, timer := none } .END 0) 5000
      = { state := .ended, ctx := {}, timer := none } ∧
    sessionActorSend (sessionActorSend
          { state := .active, ctx := {}, timer := none } .END 0) .CANCEL_END 100
      = { state := .active, ctx := {}, timer := none } ∧
    sendSession .ended {} .PAUSE = .error .InvalidTransition :=
  ⟨(session_ending_grace {} 0 _ rfl).2.1 5000 (by decide),
   ((session_ending_grace {} 0 _ rfl).2.2.2.1 100 9999 (by decide)).1,
   (session_ending_grace {} 0 _ rfl).2.2.2.2.2 {} .PAUSE⟩

end Karaoke
